import Mathlib

/-!
# urlshort: the redirect handlers of `handler.go`

A shallow embedding of the two handler builders, `MapHandler` and `YAMLHandler`.

* A Go `string` is a Lean `String`; `==` on strings is equality.
* A `map[string]string` is its lookup function: `m k = some v` when `v, ok := m[k]`
  gives `ok = true`, and `m k = none` when the key is absent.
* An `http.ResponseWriter` is the list of calls made on it so far. The call
  `http.Redirect(w, r, url, code)` belongs to the standard library, so a handler
  that makes it is recorded as having made exactly that call, with its arguments.
  The status code and the Location header of the response are read off that call
  with the functions of `net/http`, `net/url` and `path` that `http.Redirect` uses.
* An `http.Handler` is `nil` or a function; calling `ServeHTTP` on `nil` panics.
* `yaml.Unmarshal` belongs to a library, so `YAMLHandler` takes the decoder as an
  argument: from the bytes, what it leaves in the slice and the error it returns.
* A Go map is a reference. Where the contents of the captured map over time
  matter, the closures run against these contents and the fallback may write them.
-/

namespace urlshort

/-! ## Requests, response writers, handlers -/

/-- The fields of `net/url.URL` that a request carries here. -/
structure URL where
  Path : String
  RawQuery : String
deriving DecidableEq, Repr

/-- The fields of `*http.Request` that a handler may read. -/
structure Request where
  Method : String
  URL : URL
deriving DecidableEq, Repr

/-- One call made on an `http.ResponseWriter`. `Redirect r url code` is the
standard library call `http.Redirect(w, r, url, code)`; the others are what a
fallback handler may do with the writer. -/
inductive Call where
  | Redirect (r : Request) (url : String) (code : Nat)
  | SetHeader (key value : String)
  | WriteHeader (code : Nat)
  | Write (body : String)
deriving DecidableEq, Repr

/-- An `http.ResponseWriter`, as the calls made on it so far, oldest first. -/
structure ResponseWriter where
  calls : List Call
deriving DecidableEq, Repr

/-- How a call of a handler ends: it returns, leaving the writer as `w`, or the
goroutine panics. -/
inductive Result where
  | returned (w : ResponseWriter)
  | panicked
deriving DecidableEq, Repr

/-- An `http.Handler` (or `http.HandlerFunc`) value: `nil`, or a function of the
writer and the request. -/
inductive Handler where
  | nil
  | fn (f : ResponseWriter → Request → Result)

/-- The call `h.ServeHTTP(w, r)`: a nil handler panics (nil dereference), any
other handler runs its function. -/
def Handler.ServeHTTP (h : Handler) (w : ResponseWriter) (r : Request) : Result :=
  match h with
  | Handler.nil => Result.panicked
  | Handler.fn f => f w r

/-- The call `http.Redirect(w, r, url, code)`, recorded on the writer with the
arguments it was given. -/
def http.Redirect (w : ResponseWriter) (r : Request) (url : String) (code : Nat) :
    ResponseWriter :=
  { calls := w.calls ++ [Call.Redirect r url code] }

/-! ## MapHandler -/

/-- A Go `map[string]string`, as its lookup function. -/
abbrev GoMap := String → Option String

/-- The handler built by `MapHandler(pathsToUrls, fallback)`: look the request path
up in the map; on a hit redirect with 301 and return, otherwise call the
fallback. -/
def MapHandler (pathsToUrls : GoMap) (fallback : Handler) : Handler :=
  Handler.fn fun w r =>
    let path := r.URL.Path
    match pathsToUrls path with
    | some newURL => Result.returned (http.Redirect w r newURL 301)
    | none => fallback.ServeHTTP w r

/-! ## YAMLHandler -/

/-- The record `URLHolder` of one decoded entry. -/
structure URLHolder where
  Path : String
  URL : String
deriving DecidableEq, Repr

/-- A Go `error` value that is not nil. -/
structure Error where
  msg : String
deriving DecidableEq, Repr

/-- The call `yaml.Unmarshal(yml, &redirects)` on a nil slice: what it leaves in
`redirects`, and the error it returns (`none` for nil). -/
abbrev Decoder := List Nat → List URLHolder × Option Error

/-- The body of the closure `fn` of `YAMLHandler` from the `for` loop on: scan the
entries in order, redirect with 301 and return at the first whose `Path` equals
the request path, and call the fallback when the loop ends without one. -/
def YAMLHandler.scan (fallback : Handler) (w : ResponseWriter) (r : Request)
    (path : String) : List URLHolder → Result
  | [] => fallback.ServeHTTP w r
  | entry :: rest =>
    if entry.Path = path then Result.returned (http.Redirect w r entry.URL 301)
    else YAMLHandler.scan fallback w r path rest

/-- The result of `YAMLHandler(yml, fallback)`: decode, build the closure over
whatever the decoder left in `redirects`, and return the closure with the
decoder's error. -/
def YAMLHandler (Unmarshal : Decoder) (yml : List Nat) (fallback : Handler) :
    Handler × Option Error :=
  let redirects := (Unmarshal yml).1
  let err := (Unmarshal yml).2
  let fn := Handler.fn fun w r =>
    let path := r.URL.Path
    YAMLHandler.scan fallback w r path redirects
  (fn, err)

/-! ## The captured data as shared memory

A Go map is a reference: the closure of `MapHandler` and the caller hold the same
map, and the fallback is code of the caller that may write it. The slice
`redirects` is a local variable of `YAMLHandler` that only its closure can reach.
Here the closures run against the current contents of the caller's map, and the
fallback gets these contents and leaves new ones. -/

/-- An `http.Handler` of the caller that can reach the caller's map: `nil`, or a
function that also takes the contents of the map and leaves new contents. -/
inductive SharingHandler where
  | nil
  | fn (f : GoMap → ResponseWriter → Request → GoMap × Result)

/-- The call `h.ServeHTTP(w, r)` with the caller's map holding `heap`: a nil handler
panics and writes nothing. -/
def SharingHandler.ServeHTTP (h : SharingHandler) (heap : GoMap) (w : ResponseWriter)
    (r : Request) : GoMap × Result :=
  match h with
  | SharingHandler.nil => (heap, Result.panicked)
  | SharingHandler.fn f => f heap w r

/-- A handler that does not look at the caller's map, as a handler that can reach
it and leaves it alone. -/
def Handler.sharing (h : Handler) : SharingHandler :=
  match h with
  | Handler.nil => SharingHandler.nil
  | Handler.fn f => SharingHandler.fn fun heap w r => (heap, f w r)

/-- The body of the closure of `MapHandler` while the map `pathsToUrls` refers to
holds `heap`: the contents of the map after the call, and how the call ended.
The body reads the map; on a miss the fallback runs with the same map. -/
def MapHandler.run (fallback : SharingHandler) (heap : GoMap) (w : ResponseWriter)
    (r : Request) : GoMap × Result :=
  let path := r.URL.Path
  match heap path with
  | some newURL => (heap, Result.returned (http.Redirect w r newURL 301))
  | none => fallback.ServeHTTP heap w r

/-- The body of the closure of `YAMLHandler` over the entries `redirects`, while
the caller's map holds `heap`: the loop reads the entries, and when it ends
without a match the fallback runs. -/
def YAMLHandler.run (fallback : SharingHandler) (heap : GoMap) (w : ResponseWriter)
    (r : Request) (path : String) : List URLHolder → GoMap × Result
  | [] => fallback.ServeHTTP heap w r
  | entry :: rest =>
    if entry.Path = path then (heap, Result.returned (http.Redirect w r entry.URL 301))
    else YAMLHandler.run fallback heap w r path rest

/-- Serve the requests one after the other with the `MapHandler` closure. The result
is the contents of the map after the last request and, for every request, the
contents of the map before it and how its call ended. -/
def MapHandler.serve (fallback : SharingHandler) :
    GoMap → List (ResponseWriter × Request) → GoMap × List (GoMap × Result)
  | heap, [] => (heap, [])
  | heap, q :: rest =>
    let s := MapHandler.run fallback heap q.1 q.2
    let t := MapHandler.serve fallback s.1 rest
    (t.1, (heap, s.2) :: t.2)

/-- Serve the requests one after the other with the `YAMLHandler` closure over
`redirects`, with the same result as `MapHandler.serve`. -/
def YAMLHandler.serve (redirects : List URLHolder) (fallback : SharingHandler) :
    GoMap → List (ResponseWriter × Request) → GoMap × List (GoMap × Result)
  | heap, [] => (heap, [])
  | heap, q :: rest =>
    let s := YAMLHandler.run fallback heap q.1 q.2 q.2.URL.Path redirects
    let t := YAMLHandler.serve redirects fallback s.1 rest
    (t.1, (heap, s.2) :: t.2)

/-- Two calls had the same outcome: both redirected with 301 to the same target, or
each ended as the call of the fallback on its own writer and request did. A call
is given by the contents of the map before it and how it ended. -/
def SameOutcome (fallback : SharingHandler) (qi qj : ResponseWriter × Request)
    (ti tj : GoMap × Result) : Prop :=
  (∃ u, ti.2 = Result.returned (http.Redirect qi.1 qi.2 u 301) ∧
        tj.2 = Result.returned (http.Redirect qj.1 qj.2 u 301)) ∨
  (ti.2 = (fallback.ServeHTTP ti.1 qi.1 qi.2).2 ∧
   tj.2 = (fallback.ServeHTTP tj.1 qj.1 qj.2).2)

/-! ## Maps built from an entry sequence

The two maps the comparison of the list handler with the map handler speaks of. -/

/-- The empty map, `map[string]string{}`. -/
def GoMap.empty : GoMap := fun _ => none

/-- The assignment `m[k] = v`. -/
def GoMap.insert (m : GoMap) (k v : String) : GoMap :=
  fun k' => if k' = k then some v else m k'

/-- The map `{p_i -> u_i}` obtained from an entry sequence by assigning every
entry in order, a later entry overwriting an earlier one with the same path. -/
def mapOfEntries (E : List URLHolder) : GoMap :=
  E.foldl (fun m e => GoMap.insert m e.Path e.URL) GoMap.empty

/-- The map in which the first occurrence of each path wins: an entry is assigned
only when its path is not yet a key. -/
def firstOccurrenceMap (E : List URLHolder) : GoMap :=
  E.foldl (fun m e =>
    match m e.Path with
    | some _ => m
    | none => GoMap.insert m e.Path e.URL) GoMap.empty

/-! ## The response written by `http.Redirect`

`http.Redirect` is a function of the standard library `net/http`. When
`url.Parse(url)` returns no error, an empty `Scheme` and an empty `Host`, it makes
the target absolute against the request path and cleans it; then it sets the
header with `h.Set("Location", hexEscapeNonASCII(url))` and calls
`w.WriteHeader(code)`. -/

/-- The conversion `[]byte(s)`: the UTF-8 bytes of a string. -/
def utf8 (s : String) : List Nat :=
  (s.data.flatMap String.utf8EncodeChar).map UInt8.toNat

/-- A hexadecimal digit in lower case, as `strconv.AppendInt(b, n, 16)` writes it. -/
def hexDigit (n : Nat) : Char :=
  if n < 10 then Char.ofNat (48 + n) else Char.ofNat (87 + n)

/-- What `hexEscapeNonASCII` of `net/http` writes for one byte: a byte from
`utf8.RuneSelf` (0x80) on becomes `%` and its two hexadecimal digits, any other
byte is copied. -/
def hexEscapeByte (b : Nat) : List Char :=
  if 0x80 ≤ b then [Char.ofNat 37, hexDigit (b / 16), hexDigit (b % 16)]
  else [Char.ofNat b]

/-- The function `hexEscapeNonASCII` of `net/http`, over the bytes of the UTF-8
string. -/
def hexEscapeNonASCII (s : String) : String :=
  String.mk ((utf8 s).flatMap hexEscapeByte)

/-- The loop of `getScheme` of `net/url` from index `i` on: letters go on; a digit,
`+`, `-` or `.` goes on unless it comes first; a colon ends the scheme, and is an
error when it comes first; any other byte means there is no scheme. -/
def getScheme.loop (rawURL : String) : Nat → List Char → Except String (String × String)
  | _, [] => Except.ok ("", rawURL)
  | i, c :: rest =>
    if ('a' ≤ c ∧ c ≤ 'z') ∨ ('A' ≤ c ∧ c ≤ 'Z') then getScheme.loop rawURL (i + 1) rest
    else if ('0' ≤ c ∧ c ≤ '9') ∨ c = '+' ∨ c = '-' ∨ c = '.' then
      if i = 0 then Except.ok ("", rawURL) else getScheme.loop rawURL (i + 1) rest
    else if c = ':' then
      if i = 0 then Except.error "missing protocol scheme"
      else Except.ok (String.mk (rawURL.data.take i), String.mk rest)
    else Except.ok ("", rawURL)

/-- The function `getScheme(rawURL)` of `net/url`: the scheme and what follows it,
or an error. -/
def getScheme (rawURL : String) : Except String (String × String) :=
  getScheme.loop rawURL 0 rawURL.data

/-- Whether `url.Parse` finds a scheme in the target: it cuts the fragment off at
the first `#` and calls `getScheme` on what is left. -/
def url.hasScheme (rawURL : String) : Bool :=
  match getScheme (String.mk (rawURL.data.takeWhile (fun c => c ≠ '#'))) with
  | Except.error _ => false
  | Except.ok (scheme, _) => scheme ≠ ""

/-- The condition of `http.Redirect` on `url.Parse(url)`: no error, an empty
`Scheme` and an empty `Host`. An error of `getScheme` is an error of `url.Parse`,
and a scheme it finds is the `Scheme` or comes with an error, so in both cases
the condition is false. For a target without a scheme the rest of the parser
decides; it is the argument `noHost`, true when `url.Parse` returns no error and
an empty `Host`. -/
def http.Redirect.isRelative (noHost : String → Bool) (url : String) : Bool :=
  match getScheme (String.mk (url.data.takeWhile (fun c => c ≠ '#'))) with
  | Except.error _ => false
  | Except.ok (scheme, _) => if scheme = "" then noHost url else false

/-- The function `path.Split`: the path up to and with its last slash, and the rest. -/
def path.Split (p : String) : String × String :=
  (String.mk (p.data.reverse.dropWhile (fun c => c ≠ '/')).reverse,
   String.mk (p.data.reverse.takeWhile (fun c => c ≠ '/')).reverse)

/-- The step of `path.Clean` for a `..` element that can be taken back:
`out.w--`, then `out.w--` again while `out.w > dotdot` and the byte at `out.w` is
not a slash. The buffer is held last byte first. -/
def path.Clean.backtrack (dotdot : Nat) : List Char → List Char
  | [] => []
  | c :: out => if dotdot < out.length ∧ c ≠ '/' then path.Clean.backtrack dotdot out else out

/-- The loop of `path.Clean` over what is left of the path, with the buffer `out`
held last byte first and the index `dotdot`: an empty element and a `.` element
are dropped, a `..` element takes the last element back when there is one (and
is kept when the path is not rooted), any other element is appended after a
slash. Every turn reads at least one byte, so fuel the length of the path is
enough. -/
def path.Clean.loop (rooted : Bool) : Nat → List Char → List Char → Nat → List Char
  | 0, _, out, _ => out
  | _ + 1, [], out, _ => out
  | fuel + 1, c :: rest, out, dotdot =>
    if c = '/' then path.Clean.loop rooted fuel rest out dotdot
    else if c = '.' ∧ (rest = [] ∨ rest.head? = some '/') then
      path.Clean.loop rooted fuel rest out dotdot
    else if c = '.' ∧ rest.head? = some '.' ∧
        (rest.tail = [] ∨ rest.tail.head? = some '/') then
      if dotdot < out.length then
        path.Clean.loop rooted fuel rest.tail (path.Clean.backtrack dotdot out) dotdot
      else if rooted = false then
        let out1 := if 0 < out.length then '/' :: out else out
        let out2 := '.' :: '.' :: out1
        path.Clean.loop rooted fuel rest.tail out2 out2.length
      else path.Clean.loop rooted fuel rest.tail out dotdot
    else
      let out1 :=
        if (rooted = true ∧ out.length ≠ 1) ∨ (rooted = false ∧ out.length ≠ 0) then '/' :: out
        else out
      path.Clean.loop rooted fuel (rest.dropWhile (fun x => x ≠ '/'))
        ((c :: rest.takeWhile (fun x => x ≠ '/')).reverse ++ out1) dotdot

/-- The function `path.Clean`: the shortest path equal to `p`. -/
def path.Clean (p : String) : String :=
  if p = "" then "."
  else
    let rooted : Bool := p.data.head? = some '/'
    let out :=
      if rooted then path.Clean.loop rooted (p.length + 1) p.data.tail [Char.ofNat 47] 1
      else path.Clean.loop rooted (p.length + 1) p.data [] 0
    if out = [] then "." else String.mk out.reverse

/-- The block of `http.Redirect` for a relative target: a target that does not
start with a slash is put after the directory of the request path; the query is
set aside from the first `?`; the path is cleaned, keeping a slash at its end;
the query is put back. -/
def http.Redirect.relative (requestPath url : String) : String :=
  let oldpath := if requestPath = "" then "/" else requestPath
  let url1 :=
    if url = "" ∨ url.data.head? ≠ some '/' then (path.Split oldpath).1 ++ url else url
  let query := String.mk (url1.data.dropWhile (fun c => c ≠ '?'))
  let url2 := String.mk (url1.data.takeWhile (fun c => c ≠ '?'))
  let trailing : Bool := url2.data.getLast? = some '/'
  let url3 := path.Clean url2
  let url4 := if trailing = true ∧ url3.data.getLast? ≠ some '/' then url3 ++ "/" else url3
  url4 ++ query

/-- The value `http.Redirect(w, r, url, code)` gives the Location header. -/
def http.Redirect.Location (noHost : String → Bool) (r : Request) (url : String) : String :=
  hexEscapeNonASCII
    (if http.Redirect.isRelative noHost url then http.Redirect.relative r.URL.Path url
     else url)

/-- The Location header of a response whose last call on the writer is a call of
`http.Redirect`. -/
def ResponseWriter.Location (noHost : String → Bool) (w : ResponseWriter) :
    Option String :=
  match w.calls.getLast? with
  | some (Call.Redirect r url _) => some (http.Redirect.Location noHost r url)
  | _ => none

/-- The status code of a response whose last call on the writer is a call of
`http.Redirect`, which ends with `w.WriteHeader(code)`, or of `WriteHeader`. -/
def ResponseWriter.StatusCode (w : ResponseWriter) : Option Nat :=
  match w.calls.getLast? with
  | some (Call.Redirect _ _ code) => some code
  | some (Call.WriteHeader code) => some code
  | _ => none

/-! ## Sample data -/

/-- A `GET` request for a path. -/
def get (path : String) : Request := ⟨"GET", ⟨path, ""⟩⟩

/-- A writer nothing has been written to. -/
def fresh : ResponseWriter := ⟨[]⟩

/-- A fallback that answers 404, as `http.NotFound` does. -/
def notFound : Handler :=
  Handler.fn fun w _ =>
    Result.returned { calls := w.calls ++ [Call.WriteHeader 404, Call.Write "404 page not found"] }

/-- The mapping of the two `/urlshort` paths. -/
def samplePaths : GoMap :=
  GoMap.insert
    (GoMap.insert GoMap.empty "/urlshort-go" "https://github.com/gophercises/urlshort")
    "/urlshort-final" "https://github.com/gophercises/urlshort/tree/solution"

/-- A decoder that accepts its input and yields `/dup` twice, then `/some-path`. -/
def dupDecoder : Decoder := fun _ =>
  ([⟨"/dup", "https://a.example"⟩, ⟨"/dup", "https://b.example"⟩,
    ⟨"/some-path", "https://www.some-url.com/demo"⟩], none)

/-- A decoder that rejects its input and leaves the slice empty, as on malformed
syntax. -/
def malformedDecoder : Decoder := fun _ => ([], some ⟨"yaml: did not find expected key"⟩)

/-- A document whose first element is an entry and whose second is a number. -/
def typeErrorYml : List Nat :=
  utf8 "- path: /a\n  url: https://a.example\n- 7\n"

/-- A decoder that rejects `typeErrorYml` the way `yaml.Unmarshal` documents for a
value of the wrong type: decoding goes on to the end of the document, the entry
that could be decoded stays in the slice, and an error is returned. -/
def typeErrorDecoder : Decoder := fun yml =>
  if yml = typeErrorYml then
    ([⟨"/a", "https://a.example"⟩], some ⟨"yaml: unmarshal errors"⟩)
  else ([], none)

/-- A mapping with a target that is not ASCII. -/
def cafePaths : GoMap := GoMap.insert GoMap.empty "/cafe" "https://example.com/café"

/-- A mapping with a target that is not ASCII and a target without a scheme. -/
def oddPaths : GoMap :=
  GoMap.insert (GoMap.insert GoMap.empty "/uber" "https://example.com/über")
    "/docs/old/page" "../new/./index.html"

/-- A decoder that accepts its input and yields a target without a scheme and a
target that is not ASCII. -/
def oddDecoder : Decoder := fun _ =>
  ([⟨"/a/b", "../c/./d/?q=../e"⟩, ⟨"/cafe", "https://example.com/café"⟩], none)

/-- What the rest of `url.Parse` finds for the sample targets without a scheme,
`../c/./d/?q=../e` and `../new/./index.html`: no error and no host. -/
def plainNoHost : String → Bool := fun url =>
  url = "../c/./d/?q=../e" ∨ url = "../new/./index.html"

/-- A fallback of the caller that answers 404 and records the path it was asked
for in the caller's map. -/
def learning : SharingHandler :=
  SharingHandler.fn fun heap w r =>
    (GoMap.insert heap r.URL.Path "https://learned.example",
     Result.returned { calls := w.calls ++ [Call.WriteHeader 404] })

/-! ## Lemmas on the scan of the entry sequence -/

/-- The scan redirects to the first entry whose path is the request path, and calls
the fallback when there is none. -/
theorem scan_eq_find (fallback : Handler) (w : ResponseWriter) (r : Request)
    (path : String) (E : List URLHolder) :
    YAMLHandler.scan fallback w r path E =
      match E.find? (fun e => decide (e.Path = path)) with
      | some e => Result.returned (http.Redirect w r e.URL 301)
      | none => fallback.ServeHTTP w r := by
  induction E with
  | nil => simp [YAMLHandler.scan]
  | cons e rest ih =>
    by_cases h : e.Path = path
    · simp [YAMLHandler.scan, List.find?, h]
    · simp [YAMLHandler.scan, List.find?, h, ih]

/-- The scan stops at the smallest index whose entry has the request path. -/
theorem scan_first_match (fallback : Handler) (w : ResponseWriter) (r : Request)
    (path : String) (E : List URLHolder) (j : Nat) (hj : j < E.length)
    (hmatch : (E.get ⟨j, hj⟩).Path = path)
    (hfirst : ∀ i (hi : i < E.length), i < j → (E.get ⟨i, hi⟩).Path ≠ path) :
    YAMLHandler.scan fallback w r path E =
      Result.returned (http.Redirect w r (E.get ⟨j, hj⟩).URL 301) := by
  induction E generalizing j with
  | nil => exact absurd hj (Nat.not_lt_zero _)
  | cons e rest ih =>
    cases j with
    | zero =>
      have h0 : e.Path = path := hmatch
      simp [YAMLHandler.scan, h0]
    | succ k =>
      have hne : e.Path ≠ path := hfirst 0 (Nat.succ_pos _) (Nat.succ_pos _)
      have hk : k < rest.length := Nat.lt_of_succ_lt_succ hj
      have hrest := ih k hk hmatch
        (fun i hi hik => hfirst (i + 1) (Nat.succ_lt_succ hi) (Nat.succ_lt_succ hik))
      simpa [YAMLHandler.scan, hne] using hrest

/-- The scan of a sequence without an entry for the request path ends in the call
of the fallback. -/
theorem scan_no_match (fallback : Handler) (w : ResponseWriter) (r : Request)
    (path : String) (E : List URLHolder) (hmiss : ∀ e ∈ E, e.Path ≠ path) :
    YAMLHandler.scan fallback w r path E = fallback.ServeHTTP w r := by
  induction E with
  | nil => simp [YAMLHandler.scan]
  | cons e rest ih =>
    have hne : e.Path ≠ path := hmiss e (List.mem_cons_self _ _)
    have hrest := ih (fun x hx => hmiss x (List.mem_cons_of_mem _ hx))
    simpa [YAMLHandler.scan, hne] using hrest

/-! ## Lemmas on the response written by `http.Redirect` -/

set_option maxRecDepth 100000 in
/-- Whatever `hexEscapeNonASCII` writes for a byte is ASCII. -/
theorem hexEscapeByte_ascii : ∀ b, b < 256 → ∀ c ∈ hexEscapeByte b, c.toNat < 128 := by
  decide

/-- The result of `hexEscapeNonASCII` has ASCII characters only. -/
theorem hexEscapeNonASCII_ascii (s : String) :
    ∀ c ∈ (hexEscapeNonASCII s).data, c.toNat < 128 := by
  intro c hc
  simp only [hexEscapeNonASCII, utf8, List.mem_flatMap, List.mem_map] at hc
  obtain ⟨b, ⟨x, _, hx⟩, hcb⟩ := hc
  have hb : b < 256 := by
    rw [← hx]
    exact x.val.isLt
  exact hexEscapeByte_ascii b hb c hcb

set_option maxRecDepth 100000 in
/-- An ASCII character is one byte, and `hexEscapeNonASCII` copies it. -/
theorem hexEscape_ascii_char : ∀ n, n < 128 →
    ((String.utf8EncodeChar (Char.ofNat n)).map UInt8.toNat).flatMap hexEscapeByte
      = [Char.ofNat n] := by
  decide

/-- An ASCII string comes out of `hexEscapeNonASCII` as it went in. -/
theorem hexEscapeNonASCII_of_ascii (s : String) (h : ∀ c ∈ s.data, c.toNat < 128) :
    hexEscapeNonASCII s = s := by
  have key : ∀ l : List Char, (∀ c ∈ l, c.toNat < 128) →
      ((l.flatMap String.utf8EncodeChar).map UInt8.toNat).flatMap hexEscapeByte = l := by
    intro l
    induction l with
    | nil => intro _; rfl
    | cons c rest ih =>
      intro hl
      have hc : c.toNat < 128 := hl c (List.mem_cons_self _ _)
      have h1 := hexEscape_ascii_char c.toNat hc
      rw [Char.ofNat_toNat] at h1
      rw [List.flatMap_cons, List.map_append, List.flatMap_append, h1,
        ih (fun x hx => hl x (List.mem_cons_of_mem _ hx))]
      rfl
  unfold hexEscapeNonASCII utf8
  rw [key s.data h]

/-- A target in which `url.Parse` finds a scheme is not taken for relative. -/
theorem isRelative_of_hasScheme (noHost : String → Bool) (u : String)
    (h : url.hasScheme u = true) : http.Redirect.isRelative noHost u = false := by
  unfold url.hasScheme at h
  unfold http.Redirect.isRelative
  cases hg : getScheme (String.mk (u.data.takeWhile (fun c => c ≠ '#'))) with
  | error e => rfl
  | ok p =>
    obtain ⟨scheme, rest⟩ := p
    rw [hg] at h
    have hs : scheme ≠ "" := by simpa using h
    simp [hs]

/-- The Location header after `http.Redirect(w, r, u, code)`. -/
theorem Redirect_Location (noHost : String → Bool) (w : ResponseWriter) (r : Request)
    (u : String) (code : Nat) :
    (http.Redirect w r u code).Location noHost = some (http.Redirect.Location noHost r u) := by
  simp [ResponseWriter.Location, http.Redirect]

/-- The status code after `http.Redirect(w, r, u, code)`. -/
theorem Redirect_StatusCode (w : ResponseWriter) (r : Request) (u : String) (code : Nat) :
    (http.Redirect w r u code).StatusCode = some code := by
  simp [ResponseWriter.StatusCode, http.Redirect]

/-- The Location header for a target that is not taken for relative is the target
with its bytes outside ASCII escaped. -/
theorem Location_of_not_relative (noHost : String → Bool) (r : Request) (u : String)
    (h : http.Redirect.isRelative noHost u = false) :
    http.Redirect.Location noHost r u = hexEscapeNonASCII u := by
  simp [http.Redirect.Location, h]

/-- The Location header for a target that is taken for relative is the target
made absolute against the request path and cleaned, with its bytes outside ASCII
escaped. -/
theorem Location_of_relative (noHost : String → Bool) (r : Request) (u : String)
    (h : http.Redirect.isRelative noHost u = true) :
    http.Redirect.Location noHost r u
      = hexEscapeNonASCII (http.Redirect.relative r.URL.Path u) := by
  simp [http.Redirect.Location, h]

/-! ## MapHandler: hit and miss -/

/-- C1 as stated fails. The request for `/uber` hits the target
`https://example.com/über` and is answered with status 301, but the Location
header is `https://example.com/%c3%bcber`, not the target, whatever the rest of
`url.Parse` does. The request for `/docs/old/page` hits the target
`../new/./index.html`, which has no scheme, and the Location header is
`/docs/new/index.html`. -/
theorem MapHandler_hit_location_differs :
    oddPaths (get "/uber").URL.Path = some "https://example.com/über" ∧
    (MapHandler oddPaths notFound).ServeHTTP fresh (get "/uber")
        = Result.returned (http.Redirect fresh (get "/uber") "https://example.com/über" 301) ∧
    (http.Redirect fresh (get "/uber") "https://example.com/über" 301).StatusCode
        = some 301 ∧
    (http.Redirect fresh (get "/uber") "https://example.com/über" 301).Location plainNoHost
        = some "https://example.com/%c3%bcber" ∧
    (¬ ∃ noHost : String → Bool,
      (http.Redirect fresh (get "/uber") "https://example.com/über" 301).Location noHost
        = some "https://example.com/über") ∧
    oddPaths (get "/docs/old/page").URL.Path = some "../new/./index.html" ∧
    (MapHandler oddPaths notFound).ServeHTTP fresh (get "/docs/old/page")
        = Result.returned (http.Redirect fresh (get "/docs/old/page") "../new/./index.html" 301) ∧
    (http.Redirect fresh (get "/docs/old/page") "../new/./index.html" 301).Location plainNoHost
        = some "/docs/new/index.html" := by
  refine ⟨by decide, by decide, by decide, by decide, ?_, by decide, by decide, by decide⟩
  rintro ⟨noHost, h⟩
  rw [Redirect_Location,
    Location_of_not_relative noHost _ _ (isRelative_of_hasScheme noHost _ (by decide))] at h
  exact absurd h (by decide)

/-- C1, amended. MapHandler hit: when the request path is a key of the mapping,
with value `u`, the handler returns after the single call
`http.Redirect(w, r, u, 301)` on the writer it was given, whatever the fallback
is (nil included): the fallback is not called. The response has status code 301.
Its Location header is what `http.Redirect` makes of `u`: when the target is not
taken for relative, as is every target with a scheme, it is `u` with the bytes
outside ASCII escaped, so `u` itself when `u` is ASCII; when the target is taken
for relative it is the target resolved against the request path. -/
theorem MapHandler_hit (pathsToUrls : GoMap) (fallback : Handler) (w : ResponseWriter)
    (r : Request) (u : String) (noHost : String → Bool)
    (hkey : pathsToUrls r.URL.Path = some u) :
    (MapHandler pathsToUrls fallback).ServeHTTP w r
        = Result.returned (http.Redirect w r u 301) ∧
    (http.Redirect w r u 301).calls = w.calls ++ [Call.Redirect r u 301] ∧
    (∀ other : Handler,
      (MapHandler pathsToUrls other).ServeHTTP w r
        = (MapHandler pathsToUrls fallback).ServeHTTP w r) ∧
    (http.Redirect w r u 301).StatusCode = some 301 ∧
    (url.hasScheme u = true → http.Redirect.isRelative noHost u = false) ∧
    (http.Redirect.isRelative noHost u = false →
      (http.Redirect w r u 301).Location noHost = some (hexEscapeNonASCII u)) ∧
    (http.Redirect.isRelative noHost u = false → (∀ c ∈ u.data, c.toNat < 128) →
      (http.Redirect w r u 301).Location noHost = some u) ∧
    (http.Redirect.isRelative noHost u = true →
      (http.Redirect w r u 301).Location noHost
        = some (hexEscapeNonASCII (http.Redirect.relative r.URL.Path u))) := by
  refine ⟨?_, rfl, ?_, Redirect_StatusCode w r u 301, isRelative_of_hasScheme noHost u,
    ?_, ?_, ?_⟩
  · simp [MapHandler, Handler.ServeHTTP, hkey]
  · intro other
    simp [MapHandler, Handler.ServeHTTP, hkey]
  · intro hrel
    rw [Redirect_Location, Location_of_not_relative noHost r u hrel]
  · intro hrel hascii
    rw [Redirect_Location, Location_of_not_relative noHost r u hrel,
      hexEscapeNonASCII_of_ascii u hascii]
  · intro hrel
    rw [Redirect_Location, Location_of_relative noHost r u hrel]

/-- Scenario A: the request for `/urlshort-go` is answered, also when the fallback
is nil, by the call of `http.Redirect` with the repository and 301; the status
code is 301 and the Location header is the repository. -/
theorem MapHandler_hit_witness :
    samplePaths (get "/urlshort-go").URL.Path
        = some "https://github.com/gophercises/urlshort" ∧
    (MapHandler samplePaths Handler.nil).ServeHTTP fresh (get "/urlshort-go")
        = Result.returned ⟨[Call.Redirect (get "/urlshort-go")
            "https://github.com/gophercises/urlshort" 301]⟩ ∧
    (http.Redirect fresh (get "/urlshort-go")
        "https://github.com/gophercises/urlshort" 301).StatusCode = some 301 ∧
    (http.Redirect fresh (get "/urlshort-go")
        "https://github.com/gophercises/urlshort" 301).Location plainNoHost
      = some "https://github.com/gophercises/urlshort" ∧
    (http.Redirect fresh (get "/docs/old/page") "../new/./index.html" 301).Location plainNoHost
      = some "/docs/new/index.html" :=
  have h := MapHandler_hit samplePaths Handler.nil fresh (get "/urlshort-go")
    "https://github.com/gophercises/urlshort" plainNoHost (by decide)
  have g := MapHandler_hit oddPaths Handler.nil fresh (get "/docs/old/page")
    "../new/./index.html" plainNoHost (by decide)
  ⟨by decide, h.1, h.2.2.2.1, h.2.2.2.2.2.2.1 (h.2.2.2.2.1 (by decide)) (by decide),
   (g.2.2.2.2.2.2.2 (by decide)).trans (by decide)⟩

/-- C2. MapHandler miss: when the request path is not a key of the mapping, the
result of the handler is the result of the one call `fallback.ServeHTTP(w, r)` on
the writer and the request the handler was given: for a fallback with function
`f` it is `f w r`, and the handler adds no call of its own, so no redirect. -/
theorem MapHandler_miss (pathsToUrls : GoMap) (fallback : Handler)
    (w : ResponseWriter) (r : Request) (hmiss : pathsToUrls r.URL.Path = none) :
    (MapHandler pathsToUrls fallback).ServeHTTP w r = fallback.ServeHTTP w r ∧
    ∀ f, fallback = Handler.fn f →
      (MapHandler pathsToUrls fallback).ServeHTTP w r = f w r := by
  have h : (MapHandler pathsToUrls fallback).ServeHTTP w r = fallback.ServeHTTP w r := by
    simp [MapHandler, Handler.ServeHTTP, hmiss]
  refine ⟨h, ?_⟩
  intro f hf
  rw [h, hf]
  rfl

/-- Scenario B: the request for `/unknown` gets the 404 of the fallback and
nothing else. -/
theorem MapHandler_miss_witness :
    samplePaths (get "/unknown").URL.Path = none ∧
    (MapHandler samplePaths notFound).ServeHTTP fresh (get "/unknown")
        = Result.returned ⟨[Call.WriteHeader 404, Call.Write "404 page not found"]⟩ :=
  ⟨by decide,
   (MapHandler_miss samplePaths notFound fresh (get "/unknown") (by decide)).1⟩

/-! ## YAMLHandler: first match and miss -/

/-- C3. YAMLHandler first match wins: when `j` is the smallest index of the decoded
sequence whose entry has the request path, the handler returns after the single
call `http.Redirect(w, r, u_j, 301)`, whatever the fallback is: the fallback is
not called. -/
theorem YAMLHandler_first_match (Unmarshal : Decoder) (yml : List Nat)
    (fallback : Handler) (w : ResponseWriter) (r : Request) (j : Nat)
    (hj : j < (Unmarshal yml).1.length)
    (hmatch : ((Unmarshal yml).1.get ⟨j, hj⟩).Path = r.URL.Path)
    (hfirst : ∀ i (hi : i < (Unmarshal yml).1.length), i < j →
      ((Unmarshal yml).1.get ⟨i, hi⟩).Path ≠ r.URL.Path) :
    (YAMLHandler Unmarshal yml fallback).1.ServeHTTP w r
        = Result.returned (http.Redirect w r ((Unmarshal yml).1.get ⟨j, hj⟩).URL 301) ∧
    ∀ other : Handler,
      (YAMLHandler Unmarshal yml other).1.ServeHTTP w r
        = (YAMLHandler Unmarshal yml fallback).1.ServeHTTP w r := by
  have key : ∀ fb : Handler, (YAMLHandler Unmarshal yml fb).1.ServeHTTP w r
      = Result.returned (http.Redirect w r ((Unmarshal yml).1.get ⟨j, hj⟩).URL 301) := by
    intro fb
    have h := scan_first_match fb w r r.URL.Path (Unmarshal yml).1 j hj hmatch hfirst
    simpa [YAMLHandler, Handler.ServeHTTP] using h
  exact ⟨key fallback, fun other => (key other).trans (key fallback).symm⟩

/-- Scenario D: `/dup` is mapped first to `https://a.example` and then to
`https://b.example`; the request is redirected to the first. The request for
`/some-path` is redirected to the third entry, the first with that path. -/
theorem YAMLHandler_first_match_witness :
    (YAMLHandler dupDecoder [] notFound).1.ServeHTTP fresh (get "/dup")
        = Result.returned ⟨[Call.Redirect (get "/dup") "https://a.example" 301]⟩ ∧
    (YAMLHandler dupDecoder [] notFound).1.ServeHTTP fresh (get "/some-path")
        = Result.returned
            ⟨[Call.Redirect (get "/some-path") "https://www.some-url.com/demo" 301]⟩ :=
  ⟨(YAMLHandler_first_match dupDecoder [] notFound fresh (get "/dup") 0
      (by decide) (by decide) (fun i _ hi => absurd hi (Nat.not_lt_zero i))).1,
   (YAMLHandler_first_match dupDecoder [] notFound fresh (get "/some-path") 2
      (by decide) (by decide) (by decide)).1⟩

/-- C4. YAMLHandler miss: when no entry of the decoded sequence has the request
path (the empty sequence included), the result of the handler is the result of
the one call `fallback.ServeHTTP(w, r)` on the writer and the request the handler
was given: for a fallback with function `f` it is `f w r`, and the handler adds
no call of its own, so no redirect. -/
theorem YAMLHandler_miss (Unmarshal : Decoder) (yml : List Nat) (fallback : Handler)
    (w : ResponseWriter) (r : Request)
    (hmiss : ∀ e ∈ (Unmarshal yml).1, e.Path ≠ r.URL.Path) :
    (YAMLHandler Unmarshal yml fallback).1.ServeHTTP w r = fallback.ServeHTTP w r ∧
    ∀ f, fallback = Handler.fn f →
      (YAMLHandler Unmarshal yml fallback).1.ServeHTTP w r = f w r := by
  have h : (YAMLHandler Unmarshal yml fallback).1.ServeHTTP w r
      = fallback.ServeHTTP w r := by
    have hs := scan_no_match fallback w r r.URL.Path (Unmarshal yml).1 hmiss
    simpa [YAMLHandler, Handler.ServeHTTP] using hs
  refine ⟨h, ?_⟩
  intro f hf
  rw [h, hf]
  rfl

/-- Scenario C, second half: the request for `/other` gets the 404 of the
fallback. -/
theorem YAMLHandler_miss_witness :
    (∀ e ∈ (dupDecoder []).1, e.Path ≠ (get "/other").URL.Path) ∧
    (YAMLHandler dupDecoder [] notFound).1.ServeHTTP fresh (get "/other")
        = Result.returned ⟨[Call.WriteHeader 404, Call.Write "404 page not found"]⟩ :=
  ⟨by decide,
   (YAMLHandler_miss dupDecoder [] notFound fresh (get "/other") (by decide)).1⟩

/-! ## YAMLHandler: decoding errors -/

/-- C5 as stated fails. The decoder rejects the document (the error is not nil)
but leaves the entry for `/a` in the slice, and the handler built over it
redirects the request for `/a` instead of calling the fallback. -/
theorem decode_failure_still_redirects :
    (YAMLHandler typeErrorDecoder typeErrorYml notFound).2 ≠ none ∧
    (YAMLHandler typeErrorDecoder typeErrorYml notFound).1.ServeHTTP fresh (get "/a")
        = Result.returned ⟨[Call.Redirect (get "/a") "https://a.example" 301]⟩ ∧
    (YAMLHandler typeErrorDecoder typeErrorYml notFound).1.ServeHTTP fresh (get "/a")
        ≠ notFound.ServeHTTP fresh (get "/a") := by
  decide

/-- C5, amended. When the decoder returns an error, `YAMLHandler` returns that
error and a handler that is not nil; the handler scans whatever entries the
decoder left in the slice. It calls the fallback for every request whose path
is the path of none of them, so for every request when the slice was left
empty, and it redirects with 301 a request whose path is the path of one of
them, to the target of the first such entry. -/
theorem YAMLHandler_decode_failure (Unmarshal : Decoder) (yml : List Nat)
    (fallback : Handler) (e : Error) (herr : (Unmarshal yml).2 = some e) :
    (YAMLHandler Unmarshal yml fallback).2 = some e ∧
    (YAMLHandler Unmarshal yml fallback).1 ≠ Handler.nil ∧
    (∀ w r, (∀ x ∈ (Unmarshal yml).1, x.Path ≠ r.URL.Path) →
      (YAMLHandler Unmarshal yml fallback).1.ServeHTTP w r = fallback.ServeHTTP w r) ∧
    ((Unmarshal yml).1 = [] → ∀ w r,
      (YAMLHandler Unmarshal yml fallback).1.ServeHTTP w r = fallback.ServeHTTP w r) ∧
    (∀ w r x, (Unmarshal yml).1.find? (fun y => decide (y.Path = r.URL.Path)) = some x →
      (YAMLHandler Unmarshal yml fallback).1.ServeHTTP w r
        = Result.returned (http.Redirect w r x.URL 301)) ∧
    (∀ w r, (∃ x ∈ (Unmarshal yml).1, x.Path = r.URL.Path) →
      ∃ x ∈ (Unmarshal yml).1, x.Path = r.URL.Path ∧
        (YAMLHandler Unmarshal yml fallback).1.ServeHTTP w r
          = Result.returned (http.Redirect w r x.URL 301)) := by
  have hscan : ∀ w r, (∀ x ∈ (Unmarshal yml).1, x.Path ≠ r.URL.Path) →
      (YAMLHandler Unmarshal yml fallback).1.ServeHTTP w r = fallback.ServeHTTP w r := by
    intro w r hmiss
    have h := scan_no_match fallback w r r.URL.Path (Unmarshal yml).1 hmiss
    simpa [YAMLHandler, Handler.ServeHTTP] using h
  have hfind : ∀ w r x,
      (Unmarshal yml).1.find? (fun y => decide (y.Path = r.URL.Path)) = some x →
      (YAMLHandler Unmarshal yml fallback).1.ServeHTTP w r
        = Result.returned (http.Redirect w r x.URL 301) := by
    intro w r x hx
    have h := scan_eq_find fallback w r r.URL.Path (Unmarshal yml).1
    rw [hx] at h
    simpa [YAMLHandler, Handler.ServeHTTP] using h
  refine ⟨?_, ?_, hscan, ?_, hfind, ?_⟩
  · simpa [YAMLHandler] using herr
  · simp [YAMLHandler]
  · intro hnil w r
    apply hscan
    intro x hx
    rw [hnil] at hx
    exact absurd hx (List.not_mem_nil x)
  · intro w r hex
    cases hf : (Unmarshal yml).1.find? (fun y => decide (y.Path = r.URL.Path)) with
    | none =>
      obtain ⟨x, hx, hxp⟩ := hex
      rw [List.find?_eq_none] at hf
      exact absurd (by simpa using hxp) (hf x hx)
    | some x =>
      have hmem := List.mem_of_find?_eq_some hf
      have hp : x.Path = r.URL.Path := by simpa using List.find?_some hf
      exact ⟨x, hmem, hp, hfind w r x hf⟩

/-- A decoder that rejects its input and leaves the slice empty: the error comes
back, and the request gets the 404 of the fallback. A decoder that rejects its
input and leaves the entry for `/a`: the error comes back, the request for `/a`
is redirected and the request for `/other` gets the 404 of the fallback. -/
theorem YAMLHandler_decode_failure_witness :
    (malformedDecoder (utf8 "- path: [")).2 = some ⟨"yaml: did not find expected key"⟩ ∧
    (YAMLHandler malformedDecoder (utf8 "- path: [") notFound).2
        = some ⟨"yaml: did not find expected key"⟩ ∧
    (YAMLHandler malformedDecoder (utf8 "- path: [") notFound).1.ServeHTTP fresh (get "/a")
        = Result.returned ⟨[Call.WriteHeader 404, Call.Write "404 page not found"]⟩ ∧
    (typeErrorDecoder typeErrorYml).2 = some ⟨"yaml: unmarshal errors"⟩ ∧
    (YAMLHandler typeErrorDecoder typeErrorYml notFound).2
        = some ⟨"yaml: unmarshal errors"⟩ ∧
    (YAMLHandler typeErrorDecoder typeErrorYml notFound).1.ServeHTTP fresh (get "/a")
        = Result.returned ⟨[Call.Redirect (get "/a") "https://a.example" 301]⟩ ∧
    (YAMLHandler typeErrorDecoder typeErrorYml notFound).1.ServeHTTP fresh (get "/other")
        = Result.returned ⟨[Call.WriteHeader 404, Call.Write "404 page not found"]⟩ :=
  have h := YAMLHandler_decode_failure malformedDecoder (utf8 "- path: [") notFound
    ⟨"yaml: did not find expected key"⟩ rfl
  have g := YAMLHandler_decode_failure typeErrorDecoder typeErrorYml notFound
    ⟨"yaml: unmarshal errors"⟩ (by decide)
  ⟨rfl, h.1, h.2.2.2.1 rfl fresh (get "/a"), by decide, g.1,
   g.2.2.2.2.1 fresh (get "/a") ⟨"/a", "https://a.example"⟩ (by decide),
   g.2.2.1 fresh (get "/other") (by decide)⟩

/-- C6. The error `YAMLHandler` returns is the error of the decoder, unchanged: it
is not nil exactly when the decoder's is not nil, and it depends on nothing else
(not on the fallback, not on building the closure). -/
theorem YAMLHandler_error_is_decoder_error (Unmarshal : Decoder) (yml : List Nat)
    (fallback : Handler) :
    (YAMLHandler Unmarshal yml fallback).2 = (Unmarshal yml).2 ∧
    ((YAMLHandler Unmarshal yml fallback).2 ≠ none ↔ (Unmarshal yml).2 ≠ none) ∧
    ∀ other : Handler,
      (YAMLHandler Unmarshal yml other).2 = (YAMLHandler Unmarshal yml fallback).2 := by
  refine ⟨rfl, Iff.rfl, fun _ => rfl⟩

/-- The three sample decoders: no error from the one that accepts, the decoder's
error from the two that reject. -/
theorem YAMLHandler_error_is_decoder_error_witness :
    (YAMLHandler dupDecoder [] notFound).2 = none ∧
    (YAMLHandler malformedDecoder [] notFound).2
        = some ⟨"yaml: did not find expected key"⟩ ∧
    (YAMLHandler typeErrorDecoder typeErrorYml Handler.nil).2
        = some ⟨"yaml: unmarshal errors"⟩ :=
  ⟨(YAMLHandler_error_is_decoder_error dupDecoder [] notFound).1,
   (YAMLHandler_error_is_decoder_error malformedDecoder [] notFound).1,
   (YAMLHandler_error_is_decoder_error typeErrorDecoder typeErrorYml Handler.nil).1.trans
     (by decide)⟩

/-! ## A nil fallback -/

/-- C9. A nil fallback is not looked at when the handler is built: both builders
return a handler that is not nil, and `YAMLHandler` returns the decoder's error
and no other. A request that hits is redirected with 301 as usual; a request
that misses panics, in the call of `ServeHTTP` on nil. -/
theorem nil_fallback (pathsToUrls : GoMap) (Unmarshal : Decoder) (yml : List Nat)
    (w : ResponseWriter) (r : Request) :
    MapHandler pathsToUrls Handler.nil ≠ Handler.nil ∧
    (∀ u, pathsToUrls r.URL.Path = some u →
      (MapHandler pathsToUrls Handler.nil).ServeHTTP w r
        = Result.returned (http.Redirect w r u 301)) ∧
    (pathsToUrls r.URL.Path = none →
      (MapHandler pathsToUrls Handler.nil).ServeHTTP w r = Result.panicked) ∧
    (YAMLHandler Unmarshal yml Handler.nil).1 ≠ Handler.nil ∧
    (YAMLHandler Unmarshal yml Handler.nil).2 = (Unmarshal yml).2 ∧
    (∀ e, (Unmarshal yml).1.find? (fun x => decide (x.Path = r.URL.Path)) = some e →
      (YAMLHandler Unmarshal yml Handler.nil).1.ServeHTTP w r
        = Result.returned (http.Redirect w r e.URL 301)) ∧
    ((∀ x ∈ (Unmarshal yml).1, x.Path ≠ r.URL.Path) →
      (YAMLHandler Unmarshal yml Handler.nil).1.ServeHTTP w r = Result.panicked) := by
  refine ⟨?_, ?_, ?_, ?_, rfl, ?_, ?_⟩
  · simp [MapHandler]
  · intro u hu
    simp [MapHandler, Handler.ServeHTTP, hu]
  · intro hmiss
    simp [MapHandler, Handler.ServeHTTP, hmiss]
  · simp [YAMLHandler]
  · intro e he
    have h := scan_eq_find Handler.nil w r r.URL.Path (Unmarshal yml).1
    rw [he] at h
    simpa [YAMLHandler, Handler.ServeHTTP] using h
  · intro hmiss
    have h := scan_no_match Handler.nil w r r.URL.Path (Unmarshal yml).1 hmiss
    simpa [YAMLHandler, Handler.ServeHTTP] using h

/-- With a nil fallback the sample handlers redirect `/urlshort-go` and `/dup`,
and panic on `/unknown`. -/
theorem nil_fallback_witness :
    (MapHandler samplePaths Handler.nil).ServeHTTP fresh (get "/urlshort-go")
        = Result.returned ⟨[Call.Redirect (get "/urlshort-go")
            "https://github.com/gophercises/urlshort" 301]⟩ ∧
    (YAMLHandler dupDecoder [] Handler.nil).1.ServeHTTP fresh (get "/dup")
        = Result.returned ⟨[Call.Redirect (get "/dup") "https://a.example" 301]⟩ ∧
    (MapHandler samplePaths Handler.nil).ServeHTTP fresh (get "/unknown")
        = Result.panicked ∧
    (YAMLHandler dupDecoder [] Handler.nil).1.ServeHTTP fresh (get "/unknown")
        = Result.panicked :=
  ⟨(nil_fallback samplePaths dupDecoder [] fresh (get "/urlshort-go")).2.1 _ (by decide),
   (nil_fallback samplePaths dupDecoder [] fresh (get "/dup")).2.2.2.2.2.1
      ⟨"/dup", "https://a.example"⟩ (by decide),
   (nil_fallback samplePaths dupDecoder [] fresh (get "/unknown")).2.2.1 (by decide),
   (nil_fallback samplePaths dupDecoder [] fresh (get "/unknown")).2.2.2.2.2.2 (by decide)⟩

/-! ## The target handed to `http.Redirect`, and the Location header -/

/-- C7 as stated fails. The target `https://example.com/café` is handed to
`http.Redirect` as it is, but the Location header `http.Redirect` writes is
`https://example.com/caf%c3%a9`: whatever the rest of `url.Parse` does, the header
is not the target. The target `../c/./d/?q=../e`, which has no scheme, is handed
over as it is for the request path `/a/b`, and the Location header is
`/c/d/?q=../e`. -/
theorem location_header_is_escaped :
    (MapHandler cafePaths notFound).ServeHTTP fresh (get "/cafe")
        = Result.returned
            (http.Redirect fresh (get "/cafe") "https://example.com/café" 301) ∧
    (http.Redirect fresh (get "/cafe") "https://example.com/café" 301).Location plainNoHost
        = some "https://example.com/caf%c3%a9" ∧
    (¬ ∃ noHost : String → Bool,
      (http.Redirect fresh (get "/cafe") "https://example.com/café" 301).Location noHost
        = some "https://example.com/café") ∧
    (YAMLHandler oddDecoder [] notFound).1.ServeHTTP fresh (get "/a/b")
        = Result.returned (http.Redirect fresh (get "/a/b") "../c/./d/?q=../e" 301) ∧
    (http.Redirect fresh (get "/a/b") "../c/./d/?q=../e" 301).Location plainNoHost = some "/c/d/?q=../e" := by
  refine ⟨by decide, by decide, ?_, by decide, by decide⟩
  rintro ⟨noHost, h⟩
  rw [Redirect_Location] at h
  have hascii := hexEscapeNonASCII_ascii
    (if http.Redirect.isRelative noHost "https://example.com/café" then
      http.Redirect.relative (get "/cafe").URL.Path "https://example.com/café"
     else "https://example.com/café") (Char.ofNat 233)
  have hloc : hexEscapeNonASCII
      (if http.Redirect.isRelative noHost "https://example.com/café" then
        http.Redirect.relative (get "/cafe").URL.Path "https://example.com/café"
       else "https://example.com/café") = "https://example.com/café" := by
    simpa [http.Redirect.Location] using h
  rw [hloc] at hascii
  exact absurd (hascii (by decide)) (by decide)

/-- C7, amended. A request that hits a target `u`, in the mapping or in the first
matching entry, makes the handler call `http.Redirect(w, r, u, 301)` with `u`
itself, whatever string `u` is: the handler does not validate, resolve, clean or
escape it. The Location header is what `http.Redirect` makes of `u`, a string of
ASCII characters. When the target is not taken for relative, as is every target
in which `url.Parse` finds a scheme, the header is `u` with the bytes outside
ASCII escaped, so `u` itself, character for character, when `u` is ASCII. When
the target is taken for relative, the header is the target made absolute against
the request path and cleaned, then escaped. -/
theorem target_handed_over_unchanged (pathsToUrls : GoMap) (Unmarshal : Decoder)
    (yml : List Nat) (fallback : Handler) (w : ResponseWriter) (r : Request)
    (u : String) (noHost : String → Bool) :
    (pathsToUrls r.URL.Path = some u →
      (MapHandler pathsToUrls fallback).ServeHTTP w r
        = Result.returned (http.Redirect w r u 301)) ∧
    (∀ e, (Unmarshal yml).1.find? (fun x => decide (x.Path = r.URL.Path)) = some e →
      e.URL = u →
      (YAMLHandler Unmarshal yml fallback).1.ServeHTTP w r
        = Result.returned (http.Redirect w r u 301)) ∧
    (http.Redirect w r u 301).calls = w.calls ++ [Call.Redirect r u 301] ∧
    (url.hasScheme u = true → http.Redirect.isRelative noHost u = false) ∧
    (http.Redirect.isRelative noHost u = false →
      (http.Redirect w r u 301).Location noHost = some (hexEscapeNonASCII u)) ∧
    (http.Redirect.isRelative noHost u = false → (∀ c ∈ u.data, c.toNat < 128) →
      (http.Redirect w r u 301).Location noHost = some u) ∧
    (http.Redirect.isRelative noHost u = true →
      (http.Redirect w r u 301).Location noHost
        = some (hexEscapeNonASCII (http.Redirect.relative r.URL.Path u))) ∧
    (∃ l, (http.Redirect w r u 301).Location noHost = some l ∧
      ∀ c ∈ l.data, c.toNat < 128) := by
  refine ⟨?_, ?_, rfl, isRelative_of_hasScheme noHost u, ?_, ?_, ?_, ?_⟩
  · intro hu
    simp [MapHandler, Handler.ServeHTTP, hu]
  · intro e he heu
    have h := scan_eq_find fallback w r r.URL.Path (Unmarshal yml).1
    rw [he] at h
    simpa [YAMLHandler, Handler.ServeHTTP, heu] using h
  · intro hrel
    rw [Redirect_Location, Location_of_not_relative noHost r u hrel]
  · intro hrel hascii
    rw [Redirect_Location, Location_of_not_relative noHost r u hrel,
      hexEscapeNonASCII_of_ascii u hascii]
  · intro hrel
    rw [Redirect_Location, Location_of_relative noHost r u hrel]
  · exact ⟨_, Redirect_Location noHost w r u 301, hexEscapeNonASCII_ascii _⟩

/-- The target of scenario C comes out as the Location header as it is; the target
that is not ASCII is handed over as it is and comes out escaped; the target
without a scheme is handed over as it is and comes out resolved against the
request path. -/
theorem target_handed_over_unchanged_witness :
    (YAMLHandler dupDecoder [] notFound).1.ServeHTTP fresh (get "/some-path")
        = Result.returned
            ⟨[Call.Redirect (get "/some-path") "https://www.some-url.com/demo" 301]⟩ ∧
    (http.Redirect fresh (get "/some-path") "https://www.some-url.com/demo" 301).Location
        plainNoHost = some "https://www.some-url.com/demo" ∧
    (MapHandler cafePaths notFound).ServeHTTP fresh (get "/cafe")
        = Result.returned ⟨[Call.Redirect (get "/cafe") "https://example.com/café" 301]⟩ ∧
    (http.Redirect fresh (get "/cafe") "https://example.com/café" 301).Location plainNoHost
        = some "https://example.com/caf%c3%a9" ∧
    (YAMLHandler oddDecoder [] notFound).1.ServeHTTP fresh (get "/a/b")
        = Result.returned ⟨[Call.Redirect (get "/a/b") "../c/./d/?q=../e" 301]⟩ ∧
    (http.Redirect fresh (get "/a/b") "../c/./d/?q=../e" 301).Location plainNoHost = some "/c/d/?q=../e" :=
  have a := target_handed_over_unchanged samplePaths dupDecoder [] notFound fresh
    (get "/some-path") "https://www.some-url.com/demo" plainNoHost
  have b := target_handed_over_unchanged cafePaths dupDecoder [] notFound fresh
    (get "/cafe") "https://example.com/café" plainNoHost
  have c := target_handed_over_unchanged samplePaths oddDecoder [] notFound fresh
    (get "/a/b") "../c/./d/?q=../e" plainNoHost
  ⟨a.2.1 ⟨"/some-path", "https://www.some-url.com/demo"⟩ (by decide) rfl,
   a.2.2.2.2.2.1 (a.2.2.2.1 (by decide)) (by decide),
   b.1 (by decide),
   (b.2.2.2.2.1 (b.2.2.2.1 (by decide))).trans (by decide),
   c.2.1 ⟨"/a/b", "../c/./d/?q=../e"⟩ (by decide) rfl,
   (c.2.2.2.2.2.2.1 (by decide)).trans (by decide)⟩

/-! ## The captured data over a sequence of requests -/

/-- The `YAMLHandler` closure redirects to the first entry whose path is the request
path and leaves the caller's map alone, or ends as the call of the fallback. -/
theorem YAMLHandler_run_eq_find (fallback : SharingHandler) (heap : GoMap)
    (w : ResponseWriter) (r : Request) (path : String) (E : List URLHolder) :
    YAMLHandler.run fallback heap w r path E =
      match E.find? (fun e => decide (e.Path = path)) with
      | some e => (heap, Result.returned (http.Redirect w r e.URL 301))
      | none => fallback.ServeHTTP heap w r := by
  induction E with
  | nil => simp [YAMLHandler.run]
  | cons e rest ih =>
    by_cases h : e.Path = path
    · simp [YAMLHandler.run, List.find?, h]
    · simp [YAMLHandler.run, List.find?, h, ih]

/-- With a fallback that does not write the caller's map, a call of the `MapHandler`
closure leaves the map as it was. -/
theorem MapHandler_run_quiet (fallback : SharingHandler)
    (hquiet : ∀ m w r, (fallback.ServeHTTP m w r).1 = m) (heap : GoMap)
    (w : ResponseWriter) (r : Request) : (MapHandler.run fallback heap w r).1 = heap := by
  cases hlook : heap r.URL.Path with
  | none =>
    have h := hquiet heap w r
    simpa [MapHandler.run, hlook] using h
  | some u => simp [MapHandler.run, hlook]

/-- With a fallback that does not write the caller's map, a call of the
`YAMLHandler` closure leaves the map as it was. -/
theorem YAMLHandler_run_quiet (fallback : SharingHandler)
    (hquiet : ∀ m w r, (fallback.ServeHTTP m w r).1 = m) (heap : GoMap)
    (w : ResponseWriter) (r : Request) (path : String) (E : List URLHolder) :
    (YAMLHandler.run fallback heap w r path E).1 = heap := by
  rw [YAMLHandler_run_eq_find]
  cases E.find? (fun e => decide (e.Path = path)) with
  | none => exact hquiet heap w r
  | some e => rfl

/-- With a fallback that does not write the caller's map, every request of a
sequence is served by the `MapHandler` closure with the map as it was at first. -/
theorem MapHandler_serve_quiet (fallback : SharingHandler)
    (hquiet : ∀ m w r, (fallback.ServeHTTP m w r).1 = m) (heap : GoMap)
    (reqs : List (ResponseWriter × Request)) :
    MapHandler.serve fallback heap reqs
      = (heap, reqs.map fun q => (heap, (MapHandler.run fallback heap q.1 q.2).2)) := by
  induction reqs with
  | nil => rfl
  | cons q rest ih =>
    simp only [MapHandler.serve, MapHandler_run_quiet fallback hquiet, ih, List.map_cons]

/-- With a fallback that does not write the caller's map, the map is as it was at
first after the `YAMLHandler` closure has served a sequence of requests. -/
theorem YAMLHandler_serve_quiet (redirects : List URLHolder) (fallback : SharingHandler)
    (hquiet : ∀ m w r, (fallback.ServeHTTP m w r).1 = m) (heap : GoMap)
    (reqs : List (ResponseWriter × Request)) :
    (YAMLHandler.serve redirects fallback heap reqs).1 = heap := by
  induction reqs with
  | nil => rfl
  | cons q rest ih =>
    simp only [YAMLHandler.serve, YAMLHandler_run_quiet fallback hquiet, ih]

/-- Whatever the fallback does, every request of a sequence is served by the
`YAMLHandler` closure over the same entries, with the caller's map as the
requests before it left it. -/
theorem YAMLHandler_serve_trace (redirects : List URLHolder) (fallback : SharingHandler)
    (reqs : List (ResponseWriter × Request)) :
    ∀ (heap : GoMap) (i : Nat) (q : ResponseWriter × Request), reqs[i]? = some q →
      ∃ h, (YAMLHandler.serve redirects fallback heap reqs).2[i]?
        = some (h, (YAMLHandler.run fallback h q.1 q.2 q.2.URL.Path redirects).2) := by
  induction reqs with
  | nil =>
    intro heap i q hq
    simp at hq
  | cons q0 rest ih =>
    intro heap i q hq
    cases i with
    | zero =>
      have h0 : q0 = q := by simpa using hq
      exact ⟨heap, by simp [YAMLHandler.serve, h0]⟩
    | succ k =>
      have hk : rest[k]? = some q := by simpa using hq
      obtain ⟨h, hh⟩ := ih
        (YAMLHandler.run fallback heap q0.1 q0.2 q0.2.URL.Path redirects).1 k q hk
      exact ⟨h, by simpa [YAMLHandler.serve] using hh⟩

/-- C8 as stated fails. The map is shared with the caller, and here the fallback
records in it every path it is asked for. Two requests for `/x` in a row get
different outcomes: the first misses and gets the 404 of the fallback, the second
hits and is redirected; the map after the requests has the key `/x`, which the
map captured when the handler was built had not. -/
theorem fallback_write_changes_outcome :
    (MapHandler.serve learning GoMap.empty [(fresh, get "/x"), (fresh, get "/x")]).2.map
        Prod.snd
      = [Result.returned ⟨[Call.WriteHeader 404]⟩,
         Result.returned ⟨[Call.Redirect (get "/x") "https://learned.example" 301]⟩] ∧
    (MapHandler.serve learning GoMap.empty [(fresh, get "/x"), (fresh, get "/x")]).1 "/x"
      = some "https://learned.example" ∧
    GoMap.empty "/x" = none := by
  decide

/-- C8, amended. The code of the handlers never writes the captured data: a call
that hits leaves the caller's map as it was, and a call that misses ends as the
call of the fallback on the same map, writer and request. The entries of a
`YAMLHandler` closure are reached by nothing else, so whatever the fallback
does, two requests of a sequence with the same path get the same outcome: both
are redirected with 301 to the same target, or both are handed to the fallback.
When the fallback does not write the caller's map, the map after any finite
sequence of requests is the one captured, and the same holds of a `MapHandler`
closure. A handler with a fallback that does not look at the map is the handler
`MapHandler` or `YAMLHandler` builds. -/
theorem captured_data_written_only_by_fallback (fallback : SharingHandler)
    (redirects : List URLHolder) (heap : GoMap)
    (reqs : List (ResponseWriter × Request)) :
    (∀ w r u, heap r.URL.Path = some u →
      MapHandler.run fallback heap w r
        = (heap, Result.returned (http.Redirect w r u 301))) ∧
    (∀ w r, heap r.URL.Path = none →
      MapHandler.run fallback heap w r = fallback.ServeHTTP heap w r) ∧
    (∀ w r e, redirects.find? (fun x => decide (x.Path = r.URL.Path)) = some e →
      YAMLHandler.run fallback heap w r r.URL.Path redirects
        = (heap, Result.returned (http.Redirect w r e.URL 301))) ∧
    (∀ w r, (∀ x ∈ redirects, x.Path ≠ r.URL.Path) →
      YAMLHandler.run fallback heap w r r.URL.Path redirects
        = fallback.ServeHTTP heap w r) ∧
    (∀ (i j : Nat) (qi qj : ResponseWriter × Request),
      reqs[i]? = some qi → reqs[j]? = some qj → qi.2.URL.Path = qj.2.URL.Path →
      ∃ ti tj, (YAMLHandler.serve redirects fallback heap reqs).2[i]? = some ti ∧
        (YAMLHandler.serve redirects fallback heap reqs).2[j]? = some tj ∧
        SameOutcome fallback qi qj ti tj) ∧
    ((∀ m w r, (fallback.ServeHTTP m w r).1 = m) →
      (MapHandler.serve fallback heap reqs).1 = heap ∧
      (YAMLHandler.serve redirects fallback heap reqs).1 = heap ∧
      ∀ (i j : Nat) (qi qj : ResponseWriter × Request),
        reqs[i]? = some qi → reqs[j]? = some qj → qi.2.URL.Path = qj.2.URL.Path →
        ∃ ti tj, (MapHandler.serve fallback heap reqs).2[i]? = some ti ∧
          (MapHandler.serve fallback heap reqs).2[j]? = some tj ∧
          SameOutcome fallback qi qj ti tj) ∧
    (∀ (h : Handler) w r,
      MapHandler.run h.sharing heap w r = (heap, (MapHandler heap h).ServeHTTP w r) ∧
      YAMLHandler.run h.sharing heap w r r.URL.Path redirects
        = (heap, YAMLHandler.scan h w r r.URL.Path redirects)) := by
  refine ⟨?_, ?_, ?_, ?_, ?_, ?_, ?_⟩
  · intro w r u hu
    simp [MapHandler.run, hu]
  · intro w r hmiss
    simp [MapHandler.run, hmiss]
  · intro w r e he
    rw [YAMLHandler_run_eq_find, he]
  · intro w r hmiss
    rw [YAMLHandler_run_eq_find]
    have hnone : redirects.find? (fun x => decide (x.Path = r.URL.Path)) = none := by
      rw [List.find?_eq_none]
      intro x hx
      simpa using hmiss x hx
    rw [hnone]
  · intro i j qi qj hi hj hpath
    obtain ⟨hi', hti⟩ := YAMLHandler_serve_trace redirects fallback reqs heap i qi hi
    obtain ⟨hj', htj⟩ := YAMLHandler_serve_trace redirects fallback reqs heap j qj hj
    refine ⟨_, _, hti, htj, ?_⟩
    simp only [SameOutcome, YAMLHandler_run_eq_find, hpath]
    cases redirects.find? (fun e => decide (e.Path = qj.2.URL.Path)) with
    | none => exact Or.inr ⟨rfl, rfl⟩
    | some e => exact Or.inl ⟨e.URL, rfl, rfl⟩
  · intro hquiet
    refine ⟨by rw [MapHandler_serve_quiet fallback hquiet],
      YAMLHandler_serve_quiet redirects fallback hquiet heap reqs, ?_⟩
    intro i j qi qj hi hj hpath
    rw [MapHandler_serve_quiet fallback hquiet]
    refine ⟨(heap, (MapHandler.run fallback heap qi.1 qi.2).2),
      (heap, (MapHandler.run fallback heap qj.1 qj.2).2), ?_, ?_, ?_⟩
    · simp [List.getElem?_map, hi]
    · simp [List.getElem?_map, hj]
    · simp only [SameOutcome, MapHandler.run, hpath]
      cases heap qj.2.URL.Path with
      | none => exact Or.inr ⟨rfl, rfl⟩
      | some u => exact Or.inl ⟨u, rfl, rfl⟩
  · intro h w r
    constructor
    · cases h with
      | nil =>
        simp only [MapHandler.run, MapHandler, Handler.ServeHTTP, Handler.sharing,
          SharingHandler.ServeHTTP]
        cases heap r.URL.Path <;> rfl
      | fn f =>
        simp only [MapHandler.run, MapHandler, Handler.ServeHTTP, Handler.sharing,
          SharingHandler.ServeHTTP]
        cases heap r.URL.Path <;> rfl
    · rw [YAMLHandler_run_eq_find, scan_eq_find]
      cases redirects.find? (fun e => decide (e.Path = r.URL.Path)) with
      | some e => rfl
      | none => cases h <;> rfl

/-- The requests `/dup`, `/other`, `/dup` in a row to the `YAMLHandler` closure, with
the fallback that writes the caller's map: the first and the last are redirected
to the same target. The requests `/urlshort-go`, `/other`, `/urlshort-go` to the
`MapHandler` closure with a fallback that does not look at the map: the map is
as it was, and the first and the last request are redirected to the same
target. -/
theorem captured_data_written_only_by_fallback_witness :
    (YAMLHandler.serve (dupDecoder []).1 learning GoMap.empty
        [(fresh, get "/dup"), (fresh, get "/other"), (fresh, get "/dup")]).2.map Prod.snd
      = [Result.returned ⟨[Call.Redirect (get "/dup") "https://a.example" 301]⟩,
         Result.returned ⟨[Call.WriteHeader 404]⟩,
         Result.returned ⟨[Call.Redirect (get "/dup") "https://a.example" 301]⟩] ∧
    (MapHandler.serve notFound.sharing samplePaths
        [(fresh, get "/urlshort-go"), (fresh, get "/other"), (fresh, get "/urlshort-go")]).1
      = samplePaths ∧
    (MapHandler.serve notFound.sharing samplePaths
        [(fresh, get "/urlshort-go"), (fresh, get "/other"),
         (fresh, get "/urlshort-go")]).2.map Prod.snd
      = [Result.returned ⟨[Call.Redirect (get "/urlshort-go")
            "https://github.com/gophercises/urlshort" 301]⟩,
         Result.returned ⟨[Call.WriteHeader 404, Call.Write "404 page not found"]⟩,
         Result.returned ⟨[Call.Redirect (get "/urlshort-go")
            "https://github.com/gophercises/urlshort" 301]⟩] ∧
    MapHandler.run notFound.sharing samplePaths fresh (get "/other")
      = (samplePaths, (MapHandler samplePaths notFound).ServeHTTP fresh (get "/other")) :=
  have h := captured_data_written_only_by_fallback notFound.sharing (dupDecoder []).1
    samplePaths
    [(fresh, get "/urlshort-go"), (fresh, get "/other"), (fresh, get "/urlshort-go")]
  ⟨by decide, (h.2.2.2.2.2.1 (fun _ _ _ => rfl)).1, by decide,
   (h.2.2.2.2.2.2 notFound fresh (get "/other")).1⟩

/-! ## The list handler against the map handler -/

/-- Looking a path up in the map obtained by assigning the entries of a sequence
with pairwise distinct paths, on top of a map `m`. -/
theorem foldl_insert_lookup (E : List URLHolder) (m : GoMap) (p : String)
    (hnodup : (E.map URLHolder.Path).Nodup) :
    E.foldl (fun m e => GoMap.insert m e.Path e.URL) m p =
      match E.find? (fun e => decide (e.Path = p)) with
      | some e => some e.URL
      | none => m p := by
  induction E generalizing m with
  | nil => rfl
  | cons e rest ih =>
    rw [List.map_cons, List.nodup_cons] at hnodup
    rw [List.foldl_cons, ih _ hnodup.2]
    by_cases h : e.Path = p
    · have hnone : rest.find? (fun x => decide (x.Path = p)) = none := by
        rw [List.find?_eq_none]
        intro x hx hxp
        apply hnodup.1
        rw [h]
        exact List.mem_map.mpr ⟨x, hx, by simpa using hxp⟩
      simp [List.find?, h, hnone, GoMap.insert]
    · have h2 : ¬ p = e.Path := fun hp => h hp.symm
      simp only [List.find?, h, decide_False, GoMap.insert, h2, if_false]

/-- Looking a path up in the map obtained by assigning, on top of a map `m`, each
entry whose path is not yet a key. -/
theorem foldl_first_lookup (E : List URLHolder) (m : GoMap) (p : String) :
    E.foldl (fun m e =>
        match m e.Path with
        | some _ => m
        | none => GoMap.insert m e.Path e.URL) m p =
      match m p with
      | some v => some v
      | none =>
        match E.find? (fun e => decide (e.Path = p)) with
        | some e => some e.URL
        | none => none := by
  induction E generalizing m with
  | nil =>
    simp only [List.foldl_nil, List.find?]
    cases m p <;> rfl
  | cons e rest ih =>
    rw [List.foldl_cons, ih]
    by_cases h : e.Path = p
    · cases hm : m e.Path with
      | some v =>
        have hp : m p = some v := by rw [← h]; exact hm
        simp [hp]
      | none =>
        have hp : m p = none := by rw [← h]; exact hm
        simp [hp, List.find?, h, GoMap.insert]
    · have h2 : ¬ p = e.Path := fun hp => h hp.symm
      cases hm : m e.Path with
      | some v => simp [List.find?, h]
      | none => simp [List.find?, h, GoMap.insert, h2]

/-- C10. The handler `YAMLHandler` builds over a decoded sequence answers every
request as the handler `MapHandler` builds over the map in which the first
occurrence of each path wins; when the paths of the sequence are pairwise
distinct, that is also the answer of `MapHandler` over the map obtained by
assigning every entry. -/
theorem list_handler_agrees_with_map_handler (Unmarshal : Decoder) (yml : List Nat)
    (fallback : Handler) (w : ResponseWriter) (r : Request) :
    (((Unmarshal yml).1.map URLHolder.Path).Nodup →
      (YAMLHandler Unmarshal yml fallback).1.ServeHTTP w r
        = (MapHandler (mapOfEntries (Unmarshal yml).1) fallback).ServeHTTP w r) ∧
    (YAMLHandler Unmarshal yml fallback).1.ServeHTTP w r
        = (MapHandler (firstOccurrenceMap (Unmarshal yml).1) fallback).ServeHTTP w r := by
  have hscan := scan_eq_find fallback w r r.URL.Path (Unmarshal yml).1
  constructor
  · intro hnodup
    have hmap := foldl_insert_lookup (Unmarshal yml).1 GoMap.empty r.URL.Path hnodup
    simp only [YAMLHandler, MapHandler, Handler.ServeHTTP, mapOfEntries, hscan, hmap]
    cases (Unmarshal yml).1.find? (fun e => decide (e.Path = r.URL.Path)) <;>
      simp [GoMap.empty]
  · have hmap := foldl_first_lookup (Unmarshal yml).1 GoMap.empty r.URL.Path
    simp only [YAMLHandler, MapHandler, Handler.ServeHTTP, firstOccurrenceMap, hscan, hmap]
    cases (Unmarshal yml).1.find? (fun e => decide (e.Path = r.URL.Path)) <;>
      simp [GoMap.empty]

/-- A decoder that accepts its input and yields two entries with distinct paths. -/
theorem list_handler_agrees_with_map_handler_witness :
    ((fun _ => ([⟨"/x", "https://x.example"⟩, ⟨"/y", "https://y.example"⟩], none) :
        Decoder) []).1.map URLHolder.Path = ["/x", "/y"] ∧
    (YAMLHandler (fun _ => ([⟨"/x", "https://x.example"⟩, ⟨"/y", "https://y.example"⟩], none))
        [] notFound).1.ServeHTTP fresh (get "/y")
      = (MapHandler (mapOfEntries [⟨"/x", "https://x.example"⟩, ⟨"/y", "https://y.example"⟩])
          notFound).ServeHTTP fresh (get "/y") ∧
    (YAMLHandler dupDecoder [] notFound).1.ServeHTTP fresh (get "/dup")
      = (MapHandler (firstOccurrenceMap (dupDecoder []).1) notFound).ServeHTTP fresh
          (get "/dup") ∧
    (YAMLHandler dupDecoder [] notFound).1.ServeHTTP fresh (get "/dup")
      ≠ (MapHandler (mapOfEntries (dupDecoder []).1) notFound).ServeHTTP fresh
          (get "/dup") :=
  ⟨rfl,
   (list_handler_agrees_with_map_handler
      (fun _ => ([⟨"/x", "https://x.example"⟩, ⟨"/y", "https://y.example"⟩], none))
      [] notFound fresh (get "/y")).1 (by decide),
   (list_handler_agrees_with_map_handler dupDecoder [] notFound fresh (get "/dup")).2,
   by decide⟩

end urlshort
